import Mathlib

/-!
Shallow embedding of the deterministic (rule-based) engine of the FinSage
backend, src/backend/ai_service.py: the fallback budget allocator
(_rule_based_budget), the fallback anomaly detector
(rule_based_anomaly_detection) and the fallback recommendation generator
(the except-branch of generate_ai_recommendations).

Currency amounts are modelled as exact rationals (ℚ).  Python's round
(round half to even) is modelled by bankRound / round2.  Python dicts are
modelled as association lists (List (String × ℚ)) iterated in insertion
order; a genuine dict has no duplicate keys, which appears as a Nodup
hypothesis where a theorem needs it.  The human-readable message strings
(issue / recommendation / message fields) interpolate formatted numbers and
are presentation text only (spec: exact wording is not a contract); they are
omitted from the embedded records, but every division the source performs,
including those inside message formatting, is accounted for in the checked
variants at the end of the file.
-/

namespace FinSage

/-- Round half to even to the nearest integer, as Python round does on the
exact value of its argument. -/
def bankRound (y : ℚ) : ℤ :=
  if y - ⌊y⌋ < 1/2 then ⌊y⌋
  else if 1/2 < y - ⌊y⌋ then ⌊y⌋ + 1
  else if ⌊y⌋ % 2 = 0 then ⌊y⌋ else ⌊y⌋ + 1

/-- Pythons round(x, 2): round to two decimal places. -/
def round2 (x : ℚ) : ℚ := (bankRound (x * 100) : ℚ) / 100

/-- One output record of the budget allocator: a category name and the
amount allocated to it (the keys of the dicts the source returns). -/
structure CategoryAllocation where
  category : String
  allocated_amount : ℚ
deriving DecidableEq

/-- One output record of the anomaly detector.  The issue and
recommendation fields are presentation strings and are omitted. -/
structure Anomaly where
  category : String
  impact_amount : ℚ
deriving DecidableEq

/-- One output record of the recommendation generator.  The message field
is a presentation string and is omitted. -/
structure Recommendation where
  category : String
  type : String
deriving DecidableEq

/-- The fixed nine-category table priority_allocation of
_rule_based_budget, in source order, with the min and max share of the
spendable amount for each category. -/
def priorityAllocation : List (String × ℚ × ℚ) :=
  [("Rent", 0.25, 0.35),
   ("Food", 0.15, 0.25),
   ("Bills", 0.10, 0.15),
   ("Transport", 0.08, 0.12),
   ("Healthcare", 0.05, 0.10),
   ("Education", 0.05, 0.15),
   ("Shopping", 0.05, 0.10),
   ("Entertainment", 0.03, 0.08),
   ("Other", 0.02, 0.05)]

/-- Dictionary lookup on an association list: the value of the first pair
whose key matches, if any. -/
def lookupQ (m : List (String × ℚ)) (k : String) : Option ℚ :=
  (m.find? (fun p => p.1 == k)).map (fun p => p.2)

/-- The share of the spendable amount given to one category by
_rule_based_budget: the clamped past share when the category occurs in
past_expenses (an empty or absent dict is falsy in Python, which the empty
list models), otherwise the midpoint of the category range. -/
def allocPercent (spendable : ℚ) (past : List (String × ℚ)) (mn mx : ℚ)
    (cat : String) : ℚ :=
  match lookupQ past cat with
  | some v => max mn (min (v / spendable) mx)
  | none => (mn + mx) / 2

/-- The budget_categories list of _rule_based_budget as it stands right
before the normalization step: one entry per table category with
round(spendable * allocated_percent, 2). -/
def rawBudget (spendable : ℚ) (past : List (String × ℚ)) :
    List CategoryAllocation :=
  priorityAllocation.map (fun x =>
    { category := x.1,
      allocated_amount := round2 (spendable * allocPercent spendable past x.2.1 x.2.2 x.1) })

/-- Sum of the allocated amounts of a list of allocations. -/
def sumAlloc (l : List CategoryAllocation) : ℚ :=
  (l.map (fun c => c.allocated_amount)).sum

/-- The post-processing step of _rule_based_budget: when the allocations
total more than the spendable amount, scale each one by
spendable / total and re-round to two decimals; otherwise leave the list
alone. -/
def normalizeAlloc (spendable : ℚ) (l : List CategoryAllocation) :
    List CategoryAllocation :=
  if sumAlloc l > spendable then
    l.map (fun c =>
      { category := c.category,
        allocated_amount := round2 (c.allocated_amount * (spendable / sumAlloc l)) })
  else l

/-- _rule_based_budget: spendable = income - savings - loans; empty result
when spendable ≤ 0; otherwise the per-category table allocation followed by
the scale-down normalization. -/
def ruleBasedBudget (income target_savings loan_commitments : ℚ)
    (past_expenses : List (String × ℚ)) : List CategoryAllocation :=
  let spendable := income - target_savings - loan_commitments
  if spendable ≤ 0 then []
  else normalizeAlloc spendable (rawBudget spendable past_expenses)

/-- RULE 1 loop body of rule_based_anomaly_detection: category
overspending (current amount above the allocated budget).  The state is
the pair (anomalies, detected_categories), both grown by appending. -/
def rule1Step (budget : List (String × ℚ)) (st : List Anomaly × List String)
    (p : String × ℚ) : List Anomaly × List String :=
  match lookupQ budget p.1 with
  | some allocated =>
      if p.2 > allocated then (st.1 ++ [⟨p.1, p.2 - allocated⟩], st.2 ++ [p.1])
      else st
  | none => st

/-- RULE 1 of rule_based_anomaly_detection, starting from the empty
anomaly list and the empty detected set. -/
def rule1 (current budget : List (String × ℚ)) : List Anomaly × List String :=
  current.foldl (rule1Step budget) ([], [])

/-- RULE 2 loop body: expense spike of more than 30 percent against last
month, skipped for categories already detected. -/
def rule2Step (last : List (String × ℚ)) (st : List Anomaly × List String)
    (p : String × ℚ) : List Anomaly × List String :=
  match lookupQ last p.1 with
  | some last_amount =>
      if p.1 ∉ st.2 then
        if 0 < last_amount then
          if ((p.2 - last_amount) / last_amount) * 100 > 30 then
            (st.1 ++ [⟨p.1, p.2 - last_amount⟩], st.2 ++ [p.1])
          else st
        else st
      else st
  | none => st

/-- RULE 2 of rule_based_anomaly_detection. -/
def rule2 (current last : List (String × ℚ)) (st : List Anomaly × List String) :
    List Anomaly × List String :=
  current.foldl (rule2Step last) st

/-- The total of the current expense amounts. -/
def totalCurrent (current : List (String × ℚ)) : ℚ :=
  (current.map (fun p => p.2)).sum

/-- average_per_category of RULE 3: total over the number of categories,
zero when the count is not positive. -/
def avgPerCategory (current : List (String × ℚ)) : ℚ :=
  if 0 < (current.length : ℚ) then totalCurrent current / (current.length : ℚ)
  else 0

/-- RULE 3 loop body: an amount above twice the per-category average,
skipped for categories already detected and requiring a positive average. -/
def rule3Step (avg : ℚ) (st : List Anomaly × List String) (p : String × ℚ) :
    List Anomaly × List String :=
  if p.1 ∉ st.2 ∧ 0 < avg then
    if p.2 > avg * 2 then (st.1 ++ [⟨p.1, p.2 - avg⟩], st.2 ++ [p.1])
    else st
  else st

/-- RULE 3 of rule_based_anomaly_detection, guarded by the truthiness test
on current_expenses. -/
def rule3 (current : List (String × ℚ)) (st : List Anomaly × List String) :
    List Anomaly × List String :=
  if current = [] then st
  else current.foldl (rule3Step (avgPerCategory current)) st

/-- RULES 4 and 5 of rule_based_anomaly_detection: total expenses over the
monthly limit, else (elif) total expenses above ninety percent of it. -/
def rule45 (current : List (String × ℚ)) (monthly_limit : ℚ) : List Anomaly :=
  if totalCurrent current > monthly_limit then
    [⟨"Overall Budget", totalCurrent current - monthly_limit⟩]
  else if totalCurrent current > monthly_limit * 0.9 ∧
      totalCurrent current ≤ monthly_limit then
    [⟨"Overall Budget", totalCurrent current⟩]
  else []

/-- The per-category part of the detector: rules 1, 2 and 3 threaded over
the shared (anomalies, detected_categories) state. -/
def perCategoryAnomalies (current budget last : List (String × ℚ)) :
    List Anomaly × List String :=
  rule3 current (rule2 current last (rule1 current budget))

/-- rule_based_anomaly_detection: the per-category rules followed by the
aggregate rules.  income and target_savings only reach the message
strings. -/
def ruleBasedAnomalyDetection (income monthly_limit target_savings : ℚ)
    (current budget last : List (String × ℚ)) : List Anomaly :=
  (perCategoryAnomalies current budget last).1 ++ rule45 current monthly_limit

/-- The overrun records of generate_ai_recommendations, kept as pairs of
the category and the exceeded_by amount (allocated and spent also sit in
the source record but only feed the message text).  A category missing
from budget_allocations defaults to an allocation of 0. -/
def overruns (current budget : List (String × ℚ)) : List (String × ℚ) :=
  current.filterMap (fun p =>
    let allocated := (lookupQ budget p.1).getD 0
    if 0 < allocated ∧ p.2 > allocated then some (p.1, p.2 - allocated)
    else none)

/-- The month-over-month change records of generate_ai_recommendations:
the categories whose spend rose by more than 20 percent against a positive
last-month spend (the increase percentage itself only feeds the message). -/
def momChanges (current last : List (String × ℚ)) : List String :=
  current.filterMap (fun p =>
    let lastAmt := (lookupQ last p.1).getD 0
    if 0 < lastAmt ∧ ((p.2 - lastAmt) / lastAmt) * 100 > 20 then some p.1
    else none)

/-- The rule-based fallback branch of generate_ai_recommendations: one
warning per overrun, one warning per month-over-month spike, a savings
tip when total expenses are positive, and a single positive message when
nothing else applied. -/
def fallbackRecommendations (income : ℚ)
    (current_month last_month budget : List (String × ℚ))
    (total_expenses : ℚ) : List Recommendation :=
  let recs :=
    (overruns current_month budget).map
      (fun o => { category := o.1 ++ " Budget Alert", type := "warning" })
    ++ (momChanges current_month last_month).map
      (fun cat => { category := cat ++ " Spike", type := "warning" })
    ++ (if 0 < total_expenses then
        [{ category := "Savings Opportunity", type := "success" }]
      else [])
  if recs = [] then [{ category := "Financial Health", type := "success" }]
  else recs

/-- Division that fails instead of defaulting on a zero denominator, used
by the checked variants below to witness that no division by zero is
reachable. -/
def cdiv (a b : ℚ) : Option ℚ :=
  if b = 0 then none else some (a / b)

/-- allocPercent with its division routed through cdiv. -/
def allocPercentChecked (spendable : ℚ) (past : List (String × ℚ))
    (mn mx : ℚ) (cat : String) : Option ℚ :=
  match lookupQ past cat with
  | some v => do
      let r ← cdiv v spendable
      pure (max mn (min r mx))
  | none => pure ((mn + mx) / 2)

/-- rawBudget with its divisions routed through cdiv. -/
def rawBudgetChecked (spendable : ℚ) (past : List (String × ℚ)) :
    Option (List CategoryAllocation) :=
  priorityAllocation.mapM (fun x => do
    let pct ← allocPercentChecked spendable past x.2.1 x.2.2 x.1
    pure { category := x.1, allocated_amount := round2 (spendable * pct) })

/-- _rule_based_budget with every division routed through cdiv. -/
def ruleBasedBudgetChecked (income target_savings loan_commitments : ℚ)
    (past : List (String × ℚ)) : Option (List CategoryAllocation) :=
  let spendable := income - target_savings - loan_commitments
  if spendable ≤ 0 then some []
  else do
    let raw ← rawBudgetChecked spendable past
    if sumAlloc raw > spendable then do
      let factor ← cdiv spendable (sumAlloc raw)
      pure (raw.map (fun c =>
        { category := c.category,
          allocated_amount := round2 (c.allocated_amount * factor) }))
    else pure raw

/-- rule2Step with its division routed through cdiv. -/
def rule2StepChecked (last : List (String × ℚ))
    (st : List Anomaly × List String) (p : String × ℚ) :
    Option (List Anomaly × List String) :=
  match lookupQ last p.1 with
  | some last_amount =>
      if p.1 ∉ st.2 then
        if 0 < last_amount then do
          let pct ← cdiv (p.2 - last_amount) last_amount
          pure (if pct * 100 > 30 then
              (st.1 ++ [⟨p.1, p.2 - last_amount⟩], st.2 ++ [p.1])
            else st)
        else pure st
      else pure st
  | none => pure st

/-- rule3 with its average division routed through cdiv. -/
def rule3Checked (current : List (String × ℚ))
    (st : List Anomaly × List String) :
    Option (List Anomaly × List String) :=
  if current = [] then pure st
  else do
    let avg ← if 0 < (current.length : ℚ) then
        cdiv (totalCurrent current) (current.length : ℚ)
      else pure 0
    pure (current.foldl (rule3Step avg) st)

/-- Rules 4 and 5 with the percent-used division of the rule 5 message
routed through cdiv (the quotient only reaches the message text). -/
def rule45Checked (current : List (String × ℚ)) (monthly_limit : ℚ) :
    Option (List Anomaly) :=
  if totalCurrent current > monthly_limit then
    pure [⟨"Overall Budget", totalCurrent current - monthly_limit⟩]
  else if totalCurrent current > monthly_limit * 0.9 ∧
      totalCurrent current ≤ monthly_limit then do
    let _ ← cdiv (totalCurrent current) monthly_limit
    pure [⟨"Overall Budget", totalCurrent current⟩]
  else pure []

/-- rule_based_anomaly_detection with every division routed through cdiv. -/
def ruleBasedAnomalyDetectionChecked (income monthly_limit target_savings : ℚ)
    (current budget last : List (String × ℚ)) : Option (List Anomaly) := do
  let st1 := rule1 current budget
  let st2 ← current.foldlM (rule2StepChecked last) st1
  let st3 ← rule3Checked current st2
  let agg ← rule45Checked current monthly_limit
  pure (st3.1 ++ agg)

/-- The clamp of the specification text, written as the spec words it:
restrict a share into the interval from lo to hi. -/
def specClamp (x lo hi : ℚ) : ℚ :=
  min hi (max lo x)

/-- Shape shared by the three per-category loop bodies of the detector: a
step either leaves the (anomalies, detected) state alone or appends one
anomaly for the processed key together with that key. -/
def AppendStep
    (f : (List Anomaly × List String) → (String × ℚ) →
      (List Anomaly × List String)) : Prop :=
  ∀ st p, f st p = st ∨
    ∃ q : ℚ, f st p = (st.1 ++ [⟨p.1, q⟩], st.2 ++ [p.1])

theorem bankRound_le (y : ℚ) : (bankRound y : ℚ) ≤ y + 1/2 := by
  have hf : ((⌊y⌋ : ℤ) : ℚ) ≤ y := Int.floor_le y
  have hf2 : y < (⌊y⌋ : ℚ) + 1 := Int.lt_floor_add_one y
  unfold bankRound
  split_ifs with h1 h2 h3 <;> push_cast <;> linarith

theorem le_bankRound (y : ℚ) : y - 1/2 ≤ (bankRound y : ℚ) := by
  have hf : ((⌊y⌋ : ℤ) : ℚ) ≤ y := Int.floor_le y
  have hf2 : y < (⌊y⌋ : ℚ) + 1 := Int.lt_floor_add_one y
  unfold bankRound
  split_ifs with h1 h2 h3 <;> push_cast <;> linarith

theorem one_le_bankRound {y : ℚ} (h : 1/2 < y) : (1 : ℚ) ≤ (bankRound y : ℚ) := by
  have h1 := le_bankRound y
  have h2 : (0 : ℚ) < (bankRound y : ℚ) := by linarith
  have h3 : (0 : ℤ) < bankRound y := by exact_mod_cast h2
  have h4 : (1 : ℤ) ≤ bankRound y := h3
  exact_mod_cast h4

theorem round2_le (x : ℚ) : round2 x ≤ x + 1/200 := by
  have h := bankRound_le (x * 100)
  unfold round2
  linarith

theorem le_round2 (x : ℚ) : x - 1/200 ≤ round2 x := by
  have h := le_bankRound (x * 100)
  unfold round2
  linarith

theorem round2_pos {x : ℚ} (h : 1/200 < x) : 0 < round2 x := by
  have h1 : (1 : ℚ)/2 < x * 100 := by linarith
  have h2 := one_le_bankRound h1
  unfold round2
  linarith

theorem bankRound_eval_down (y : ℚ) (n : ℤ) (h1 : (n : ℚ) ≤ y)
    (h2 : y < (n : ℚ) + 1/2) : bankRound y = n := by
  have hfl : ⌊y⌋ = n := Int.floor_eq_iff.mpr ⟨h1, by push_cast; linarith⟩
  unfold bankRound
  rw [hfl]
  split_ifs with ha hb hc
  · rfl
  all_goals (exfalso; push_neg at ha; push_cast at ha; linarith)

theorem bankRound_eval_up (y : ℚ) (n : ℤ) (h1 : (n : ℚ) - 1/2 < y)
    (h2 : y ≤ (n : ℚ)) : bankRound y = n := by
  rcases eq_or_lt_of_le h2 with heq | hlt
  · have hfl : ⌊y⌋ = n := by rw [heq, Int.floor_intCast]
    unfold bankRound
    rw [hfl, heq]
    rw [if_pos (by norm_num)]
  · have hfl : ⌊y⌋ = n - 1 := by
      apply Int.floor_eq_iff.mpr
      constructor
      · push_cast; linarith
      · push_cast; linarith
    unfold bankRound
    rw [hfl]
    split_ifs with ha hb hc
    · exfalso; push_cast at ha; linarith
    · omega
    · exfalso
      push_neg at ha hb
      push_cast at ha hb
      linarith
    · omega

theorem round2_eval_down (x : ℚ) (n : ℤ) (h1 : (n : ℚ) ≤ x * 100)
    (h2 : x * 100 < (n : ℚ) + 1/2) : round2 x = (n : ℚ) / 100 := by
  unfold round2
  rw [bankRound_eval_down (x * 100) n h1 h2]

theorem round2_eval_up (x : ℚ) (n : ℤ) (h1 : (n : ℚ) - 1/2 < x * 100)
    (h2 : x * 100 ≤ (n : ℚ)) : round2 x = (n : ℚ) / 100 := by
  unfold round2
  rw [bankRound_eval_up (x * 100) n h1 h2]

/-- With no past expenses every category falls to its midpoint share:
rawBudget written out over the nine-entry table. -/
theorem rawBudget_nil (s : ℚ) :
    rawBudget s [] =
      [⟨"Rent", round2 (s * (3/10))⟩,
       ⟨"Food", round2 (s * (1/5))⟩,
       ⟨"Bills", round2 (s * (1/8))⟩,
       ⟨"Transport", round2 (s * (1/10))⟩,
       ⟨"Healthcare", round2 (s * (3/40))⟩,
       ⟨"Education", round2 (s * (1/10))⟩,
       ⟨"Shopping", round2 (s * (3/40))⟩,
       ⟨"Entertainment", round2 (s * (11/200))⟩,
       ⟨"Other", round2 (s * (7/200))⟩] := by
  simp only [rawBudget, priorityAllocation, allocPercent, lookupQ,
    List.find?, List.map]
  norm_num

theorem sum_round2_map_le (l : List CategoryAllocation) (g : ℚ) :
    sumAlloc (l.map (fun c =>
      { category := c.category,
        allocated_amount := round2 (c.allocated_amount * g) })) ≤
      sumAlloc l * g + (l.length : ℚ) / 200 := by
  induction l with
  | nil => simp [sumAlloc]
  | cons a t ih =>
      have hr := round2_le (a.allocated_amount * g)
      simp only [List.map_cons, sumAlloc, List.sum_cons, List.length_cons] at ih ⊢
      push_cast
      ring_nf at ih ⊢
      linarith

theorem normalizeAlloc_sum_le (s : ℚ) (l : List CategoryAllocation)
    (hs : 0 < s) :
    sumAlloc (normalizeAlloc s l) ≤ s + (l.length : ℚ) / 200 := by
  unfold normalizeAlloc
  split_ifs with hgt
  · have h1 := sum_round2_map_le l (s / sumAlloc l)
    have hT : 0 < sumAlloc l := lt_trans hs hgt
    have h2 : sumAlloc l * (s / sumAlloc l) = s := by field_simp
    linarith
  · have h0 : (0:ℚ) ≤ (l.length : ℚ) / 200 := by positivity
    push_neg at hgt
    linarith

theorem normalizeAlloc_map_category (s : ℚ) (l : List CategoryAllocation) :
    (normalizeAlloc s l).map (fun c => c.category) =
      l.map (fun c => c.category) := by
  unfold normalizeAlloc
  split_ifs with h
  · rw [List.map_map]
    rfl
  · rfl

theorem raw_lb (s m : ℚ) (hs : 1 ≤ s) (hm : 7/200 ≤ m) :
    3/100 * s ≤ round2 (s * m) := by
  have h1 := le_round2 (s * m)
  have h0 : (0:ℚ) ≤ s := by linarith
  have h2 : s * (7/200) ≤ s * m := mul_le_mul_of_nonneg_left hm h0
  nlinarith

theorem normalizeAlloc_pos (s : ℚ) (l : List CategoryAllocation) (hs : 1 ≤ s)
    (hl : ∀ c ∈ l, 3/100 * s ≤ c.allocated_amount)
    (hub : sumAlloc l ≤ 111/100 * s) :
    ∀ c ∈ normalizeAlloc s l, 0 < c.allocated_amount := by
  have hs0 : (0:ℚ) < s := by linarith
  unfold normalizeAlloc
  split_ifs with hgt
  · intro c hc
    rw [List.mem_map] at hc
    obtain ⟨a, ha, rfl⟩ := hc
    have haa := hl a ha
    have hT : 0 < sumAlloc l := lt_trans hs0 hgt
    apply round2_pos
    show 1/200 < a.allocated_amount * (s / sumAlloc l)
    rw [← mul_div_assoc, lt_div_iff hT]
    have h1 : 3/100 * s * s ≤ a.allocated_amount * s :=
      mul_le_mul_of_nonneg_right haa (le_of_lt hs0)
    have hss : 1 * s ≤ s * s := mul_le_mul_of_nonneg_right hs (le_of_lt hs0)
    nlinarith
  · intro c hc
    have := hl c hc
    linarith

/-- Claim C2: when spendable = income - targetSavings - loanCommitments is
not positive, the deterministic budget allocator returns the empty list,
whatever the past expenses are. -/
theorem ruleBasedBudget_nonpos_spendable (income target_savings loan_commitments : ℚ)
    (past : List (String × ℚ))
    (h : income - target_savings - loan_commitments ≤ 0) :
    ruleBasedBudget income target_savings loan_commitments past = [] := by
  simp only [ruleBasedBudget]
  rw [if_pos h]

theorem ruleBasedBudget_nonpos_spendable_witness :
    (5:ℚ) - 10 - 2 ≤ 0 ∧ ruleBasedBudget 5 10 2 [("Food", 300)] = [] :=
  ⟨by norm_num, ruleBasedBudget_nonpos_spendable 5 10 2 [("Food", 300)] (by norm_num)⟩

/-- Claim C3: the scale-down correction rescales by spendable over total
and re-rounds exactly when the total exceeds spendable, and leaves an
already-compliant allocation list untouched. -/
theorem normalizeAlloc_spec (s : ℚ) (l : List CategoryAllocation) :
    (sumAlloc l > s →
      normalizeAlloc s l = l.map (fun c =>
        { category := c.category,
          allocated_amount := round2 (c.allocated_amount * (s / sumAlloc l)) }))
    ∧ (sumAlloc l ≤ s → normalizeAlloc s l = l) := by
  constructor
  · intro hgt
    unfold normalizeAlloc
    rw [if_pos hgt]
  · intro hle
    unfold normalizeAlloc
    rw [if_neg (by linarith)]

theorem normalizeAlloc_spec_witness :
    sumAlloc [(⟨"Rent", 40⟩ : CategoryAllocation), ⟨"Food", 50⟩] ≤ 100 ∧
      normalizeAlloc 100 [(⟨"Rent", 40⟩ : CategoryAllocation), ⟨"Food", 50⟩] =
        [⟨"Rent", 40⟩, ⟨"Food", 50⟩] := by
  have hle : sumAlloc [(⟨"Rent", 40⟩ : CategoryAllocation), ⟨"Food", 50⟩] ≤ 100 := by
    simp [sumAlloc]
    norm_num
  exact ⟨hle, (normalizeAlloc_spec 100 _).2 hle⟩

/-- Claim C1 (amended): for spendable at least one currency unit and no
past expenses, the allocator returns exactly one allocation per category of
the fixed nine-category table, every allocated amount is strictly positive,
and the amounts total at most spendable + 0.045 (nine roundings of at most
half a cent each). -/
theorem ruleBasedBudget_no_past_props (income target_savings loan_commitments : ℚ)
    (h : 1 ≤ income - target_savings - loan_commitments) :
    (ruleBasedBudget income target_savings loan_commitments []).map
        (fun c => c.category) =
      ["Rent", "Food", "Bills", "Transport", "Healthcare", "Education",
       "Shopping", "Entertainment", "Other"]
    ∧ (∀ c ∈ ruleBasedBudget income target_savings loan_commitments [],
        0 < c.allocated_amount)
    ∧ sumAlloc (ruleBasedBudget income target_savings loan_commitments []) ≤
      (income - target_savings - loan_commitments) + 9/200 := by
  set s := income - target_savings - loan_commitments with hs_def
  have hs1 : 1 ≤ s := h
  have hs0 : (0:ℚ) < s := by linarith
  have hrb : ruleBasedBudget income target_savings loan_commitments [] =
      normalizeAlloc s (rawBudget s []) := by
    simp only [ruleBasedBudget, ← hs_def]
    rw [if_neg (by linarith)]
  rw [hrb]
  have hraw := rawBudget_nil s
  have hl : ∀ c ∈ rawBudget s [], 3/100 * s ≤ c.allocated_amount := by
    rw [hraw]
    intro c hc
    simp only [List.mem_cons, List.not_mem_nil, or_false] at hc
    rcases hc with rfl | rfl | rfl | rfl | rfl | rfl | rfl | rfl | rfl
    all_goals exact raw_lb s _ hs1 (by norm_num)
  have hub : sumAlloc (rawBudget s []) ≤ 111/100 * s := by
    rw [hraw]
    simp only [sumAlloc, List.map_cons, List.map_nil, List.sum_cons, List.sum_nil]
    have u1 := round2_le (s * (3/10))
    have u2 := round2_le (s * (1/5))
    have u3 := round2_le (s * (1/8))
    have u4 := round2_le (s * (1/10))
    have u5 := round2_le (s * (3/40))
    have u6 := round2_le (s * (11/200))
    have u7 := round2_le (s * (7/200))
    linarith
  refine ⟨?_, normalizeAlloc_pos s _ hs1 hl hub, ?_⟩
  · rw [normalizeAlloc_map_category, hraw]
    simp
  · have hb := normalizeAlloc_sum_le s (rawBudget s []) hs0
    have hlen : (rawBudget s []).length = 9 := by rw [hraw]; rfl
    rw [hlen] at hb
    norm_num at hb
    linarith

theorem ruleBasedBudget_no_past_props_witness :
    1 ≤ (50000:ℚ) - 10000 - 0 ∧
      ((ruleBasedBudget 50000 10000 0 []).map (fun c => c.category) =
        ["Rent", "Food", "Bills", "Transport", "Healthcare", "Education",
         "Shopping", "Entertainment", "Other"]
      ∧ (∀ c ∈ ruleBasedBudget 50000 10000 0 [], 0 < c.allocated_amount)
      ∧ sumAlloc (ruleBasedBudget 50000 10000 0 []) ≤
        ((50000:ℚ) - 10000 - 0) + 9/200) :=
  ⟨by norm_num, ruleBasedBudget_no_past_props 50000 10000 0 (by norm_num)⟩

/-- Claim C1 as frozen is false on the code at two inputs: with
spendable = 0.01 every allocation rounds to zero (not strictly positive),
and with spendable = 6.47 the returned amounts total 6.49, which exceeds
spendable + 0.01. -/
theorem claimC1_counterexample :
    ((0:ℚ) < 0.01 - 0 - 0 ∧
      (⟨"Rent", 0⟩ : CategoryAllocation) ∈ ruleBasedBudget 0.01 0 0 [])
    ∧ ((0:ℚ) < 6.47 - 0 - 0 ∧
      ((6.47:ℚ) - 0 - 0) + 0.01 < sumAlloc (ruleBasedBudget 6.47 0 0 [])) := by
  have hu1 : ruleBasedBudget 0.01 0 0 [] =
      normalizeAlloc (0.01 - 0 - 0) (rawBudget (0.01 - 0 - 0) []) := by
    simp only [ruleBasedBudget]
    rw [if_neg (by norm_num)]
  have h001 : (0.01:ℚ) - 0 - 0 = 0.01 := by norm_num
  have z1 : round2 ((0.01:ℚ) * (3/10)) = 0 := by
    rw [round2_eval_down _ 0 (by norm_num) (by norm_num)]; norm_num
  have z2 : round2 ((0.01:ℚ) * (1/5)) = 0 := by
    rw [round2_eval_down _ 0 (by norm_num) (by norm_num)]; norm_num
  have z3 : round2 ((0.01:ℚ) * (1/8)) = 0 := by
    rw [round2_eval_down _ 0 (by norm_num) (by norm_num)]; norm_num
  have z4 : round2 ((0.01:ℚ) * (1/10)) = 0 := by
    rw [round2_eval_down _ 0 (by norm_num) (by norm_num)]; norm_num
  have z5 : round2 ((0.01:ℚ) * (3/40)) = 0 := by
    rw [round2_eval_down _ 0 (by norm_num) (by norm_num)]; norm_num
  have z6 : round2 ((0.01:ℚ) * (11/200)) = 0 := by
    rw [round2_eval_down _ 0 (by norm_num) (by norm_num)]; norm_num
  have z7 : round2 ((0.01:ℚ) * (7/200)) = 0 := by
    rw [round2_eval_down _ 0 (by norm_num) (by norm_num)]; norm_num
  have hu2 : ruleBasedBudget 6.47 0 0 [] =
      normalizeAlloc (6.47 - 0 - 0) (rawBudget (6.47 - 0 - 0) []) := by
    simp only [ruleBasedBudget]
    rw [if_neg (by norm_num)]
  have h647 : (6.47:ℚ) - 0 - 0 = 6.47 := by norm_num
  have a1 : round2 ((6.47:ℚ) * (3/10)) = 1.94 := by
    rw [round2_eval_down _ 194 (by norm_num) (by norm_num)]; norm_num
  have a2 : round2 ((6.47:ℚ) * (1/5)) = 1.29 := by
    rw [round2_eval_down _ 129 (by norm_num) (by norm_num)]; norm_num
  have a3 : round2 ((6.47:ℚ) * (1/8)) = 0.81 := by
    rw [round2_eval_up _ 81 (by norm_num) (by norm_num)]; norm_num
  have a4 : round2 ((6.47:ℚ) * (1/10)) = 0.65 := by
    rw [round2_eval_up _ 65 (by norm_num) (by norm_num)]; norm_num
  have a5 : round2 ((6.47:ℚ) * (3/40)) = 0.49 := by
    rw [round2_eval_up _ 49 (by norm_num) (by norm_num)]; norm_num
  have a6 : round2 ((6.47:ℚ) * (11/200)) = 0.36 := by
    rw [round2_eval_up _ 36 (by norm_num) (by norm_num)]; norm_num
  have a7 : round2 ((6.47:ℚ) * (7/200)) = 0.23 := by
    rw [round2_eval_up _ 23 (by norm_num) (by norm_num)]; norm_num
  refine ⟨⟨by norm_num, ?_⟩, by norm_num, ?_⟩
  · rw [hu1, h001, rawBudget_nil, z1, z2, z3, z4, z5, z6, z7]
    norm_num [normalizeAlloc, sumAlloc]
  · rw [hu2, h647, rawBudget_nil, a1, a2, a3, a4, a5, a6, a7]
    have hsum : sumAlloc
        [(⟨"Rent", 1.94⟩ : CategoryAllocation), ⟨"Food", 1.29⟩, ⟨"Bills", 0.81⟩,
         ⟨"Transport", 0.65⟩, ⟨"Healthcare", 0.49⟩, ⟨"Education", 0.65⟩,
         ⟨"Shopping", 0.49⟩, ⟨"Entertainment", 0.36⟩, ⟨"Other", 0.23⟩] = 6.91 := by
      simp only [sumAlloc, List.map_cons, List.map_nil, List.sum_cons, List.sum_nil]
      norm_num
    unfold normalizeAlloc
    rw [hsum]
    rw [if_pos (by norm_num)]
    simp only [List.map_cons, List.map_nil]
    have b1 : round2 ((1.94:ℚ) * (6.47 / 6.91)) = 1.82 := by
      rw [round2_eval_up _ 182 (by norm_num) (by norm_num)]; norm_num
    have b2 : round2 ((1.29:ℚ) * (6.47 / 6.91)) = 1.21 := by
      rw [round2_eval_up _ 121 (by norm_num) (by norm_num)]; norm_num
    have b3 : round2 ((0.81:ℚ) * (6.47 / 6.91)) = 0.76 := by
      rw [round2_eval_up _ 76 (by norm_num) (by norm_num)]; norm_num
    have b4 : round2 ((0.65:ℚ) * (6.47 / 6.91)) = 0.61 := by
      rw [round2_eval_up _ 61 (by norm_num) (by norm_num)]; norm_num
    have b5 : round2 ((0.49:ℚ) * (6.47 / 6.91)) = 0.46 := by
      rw [round2_eval_up _ 46 (by norm_num) (by norm_num)]; norm_num
    have b6 : round2 ((0.36:ℚ) * (6.47 / 6.91)) = 0.34 := by
      rw [round2_eval_up _ 34 (by norm_num) (by norm_num)]; norm_num
    have b7 : round2 ((0.23:ℚ) * (6.47 / 6.91)) = 0.22 := by
      rw [round2_eval_up _ 22 (by norm_num) (by norm_num)]; norm_num
    rw [b1, b2, b3, b4, b5, b6, b7]
    simp only [sumAlloc, List.map_cons, List.map_nil, List.sum_cons, List.sum_nil]
    norm_num

/-- The full allocator output for income 50000, savings 10000, no loans
and no past expenses: the raw midpoint allocations total 42600, above the
spendable 40000, so the normalization rescale fires. -/
theorem ruleBasedBudget_eval_50000 :
    ruleBasedBudget 50000 10000 0 [] =
      [⟨"Rent", 11267.61⟩, ⟨"Food", 7511.74⟩, ⟨"Bills", 4694.84⟩,
       ⟨"Transport", 3755.87⟩, ⟨"Healthcare", 2816.90⟩, ⟨"Education", 3755.87⟩,
       ⟨"Shopping", 2816.90⟩, ⟨"Entertainment", 2065.73⟩, ⟨"Other", 1314.55⟩] := by
  have hu : ruleBasedBudget 50000 10000 0 [] =
      normalizeAlloc (50000 - 10000 - 0) (rawBudget (50000 - 10000 - 0) []) := by
    simp only [ruleBasedBudget]
    rw [if_neg (by norm_num)]
  have h4 : (50000:ℚ) - 10000 - 0 = 40000 := by norm_num
  have a1 : round2 ((40000:ℚ) * (3/10)) = 12000 := by
    rw [round2_eval_down _ 1200000 (by norm_num) (by norm_num)]; norm_num
  have a2 : round2 ((40000:ℚ) * (1/5)) = 8000 := by
    rw [round2_eval_down _ 800000 (by norm_num) (by norm_num)]; norm_num
  have a3 : round2 ((40000:ℚ) * (1/8)) = 5000 := by
    rw [round2_eval_down _ 500000 (by norm_num) (by norm_num)]; norm_num
  have a4 : round2 ((40000:ℚ) * (1/10)) = 4000 := by
    rw [round2_eval_down _ 400000 (by norm_num) (by norm_num)]; norm_num
  have a5 : round2 ((40000:ℚ) * (3/40)) = 3000 := by
    rw [round2_eval_down _ 300000 (by norm_num) (by norm_num)]; norm_num
  have a6 : round2 ((40000:ℚ) * (11/200)) = 2200 := by
    rw [round2_eval_down _ 220000 (by norm_num) (by norm_num)]; norm_num
  have a7 : round2 ((40000:ℚ) * (7/200)) = 1400 := by
    rw [round2_eval_down _ 140000 (by norm_num) (by norm_num)]; norm_num
  rw [hu, h4, rawBudget_nil, a1, a2, a3, a4, a5, a6, a7]
  have hsum : sumAlloc
      [(⟨"Rent", 12000⟩ : CategoryAllocation), ⟨"Food", 8000⟩, ⟨"Bills", 5000⟩,
       ⟨"Transport", 4000⟩, ⟨"Healthcare", 3000⟩, ⟨"Education", 4000⟩,
       ⟨"Shopping", 3000⟩, ⟨"Entertainment", 2200⟩, ⟨"Other", 1400⟩] = 42600 := by
    simp only [sumAlloc, List.map_cons, List.map_nil, List.sum_cons, List.sum_nil]
    norm_num
  unfold normalizeAlloc
  rw [hsum]
  rw [if_pos (by norm_num)]
  simp only [List.map_cons, List.map_nil]
  have b1 : round2 ((12000:ℚ) * (40000 / 42600)) = 11267.61 := by
    rw [round2_eval_up _ 1126761 (by norm_num) (by norm_num)]; norm_num
  have b2 : round2 ((8000:ℚ) * (40000 / 42600)) = 7511.74 := by
    rw [round2_eval_up _ 751174 (by norm_num) (by norm_num)]; norm_num
  have b3 : round2 ((5000:ℚ) * (40000 / 42600)) = 4694.84 := by
    rw [round2_eval_up _ 469484 (by norm_num) (by norm_num)]; norm_num
  have b4 : round2 ((4000:ℚ) * (40000 / 42600)) = 3755.87 := by
    rw [round2_eval_up _ 375587 (by norm_num) (by norm_num)]; norm_num
  have b5 : round2 ((3000:ℚ) * (40000 / 42600)) = 2816.90 := by
    rw [round2_eval_down _ 281690 (by norm_num) (by norm_num)]; norm_num
  have b6 : round2 ((2200:ℚ) * (40000 / 42600)) = 2065.73 := by
    rw [round2_eval_up _ 206573 (by norm_num) (by norm_num)]; norm_num
  have b7 : round2 ((1400:ℚ) * (40000 / 42600)) = 1314.55 := by
    rw [round2_eval_down _ 131455 (by norm_num) (by norm_num)]; norm_num
  rw [b1, b2, b3, b4, b5, b6, b7]

/-- Claim C4 is false as frozen: for income 50000, savings 10000, no loans
and no past expenses, the allocator's returned Rent amount is not
12000.00. -/
theorem claimC4_counterexample :
    ¬ ((ruleBasedBudget 50000 10000 0 []).find?
        (fun c => c.category == "Rent") =
      some (⟨"Rent", 12000⟩ : CategoryAllocation)) := by
  rw [ruleBasedBudget_eval_50000]
  intro h
  simp only [List.find?] at h
  norm_num [CategoryAllocation.mk.injEq] at h

/-- Claim C4 (amended): with spendable 40000 and no past expenses the
pre-normalization Rent amount is round(40000 * 0.30, 2) = 12000.00, the
midpoint of the 25 to 35 percent range; the midpoint allocations across
all nine categories total 42600 > 40000, so the returned Rent amount is
the rescaled round(12000 * 40000 / 42600, 2) = 11267.61. -/
theorem rent_allocation_eval :
    (rawBudget 40000 []).find? (fun c => c.category == "Rent") =
      some (⟨"Rent", round2 (40000 * (3/10))⟩ : CategoryAllocation)
    ∧ round2 ((40000:ℚ) * (3/10)) = 12000
    ∧ (ruleBasedBudget 50000 10000 0 []).find? (fun c => c.category == "Rent") =
      some (⟨"Rent", 11267.61⟩ : CategoryAllocation) := by
  refine ⟨?_, ?_, ?_⟩
  · rw [rawBudget_nil]
    simp [List.find?]
  · rw [round2_eval_down _ 1200000 (by norm_num) (by norm_num)]; norm_num
  · rw [ruleBasedBudget_eval_50000]
    simp [List.find?]

/-- The share used by allocPercent equals the clamp the spec describes
when mn ≤ mx: code form max mn (min p mx), spec form min mx (max mn p). -/
theorem allocPercent_eq_spec (s : ℚ) (past : List (String × ℚ)) (mn mx : ℚ)
    (cat : String) (hle : mn ≤ mx) :
    allocPercent s past mn mx cat =
      (match lookupQ past cat with
        | some v => specClamp (v / s) mn mx
        | none => (mn + mx) / 2) := by
  unfold allocPercent specClamp
  cases lookupQ past cat with
  | none => rfl
  | some v =>
      simp only []
      rw [max_min_distrib_left, max_eq_right hle, min_comm]

/-- Claim C5: for positive spendable, every pre-normalization amount is
round(spendable * share, 2) where the share is the clamped past share for
a category found in pastExpenses and the range midpoint otherwise. -/
theorem rawBudget_amounts_spec (s : ℚ) (past : List (String × ℚ))
    (hs : 0 < s) :
    rawBudget s past = priorityAllocation.map (fun x =>
      { category := x.1,
        allocated_amount := round2 (s * (match lookupQ past x.1 with
          | some v => specClamp (v / s) x.2.1 x.2.2
          | none => (x.2.1 + x.2.2) / 2)) }) := by
  unfold rawBudget
  apply List.map_congr_left
  intro x hx
  have hle : x.2.1 ≤ x.2.2 := by
    fin_cases hx <;> norm_num
  rw [allocPercent_eq_spec s past x.2.1 x.2.2 x.1 hle]

theorem rawBudget_amounts_spec_witness :
    (0:ℚ) < 40000 ∧
      rawBudget 40000 [("Food", 5000)] = priorityAllocation.map (fun x =>
        { category := x.1,
          allocated_amount := round2 (40000 * (match lookupQ [("Food", 5000)] x.1 with
            | some v => specClamp (v / 40000) x.2.1 x.2.2
            | none => (x.2.1 + x.2.2) / 2)) }) :=
  ⟨by norm_num, rawBudget_amounts_spec 40000 [("Food", 5000)] (by norm_num)⟩

theorem rule1Step_appendStep (budget : List (String × ℚ)) :
    AppendStep (rule1Step budget) := by
  intro st p
  unfold rule1Step
  cases lookupQ budget p.1 with
  | none => exact Or.inl rfl
  | some alloc =>
      dsimp only
      split_ifs with h
      · exact Or.inr ⟨p.2 - alloc, rfl⟩
      · exact Or.inl rfl

theorem rule2Step_appendStep (last : List (String × ℚ)) :
    AppendStep (rule2Step last) := by
  intro st p
  unfold rule2Step
  cases lookupQ last p.1 with
  | none => exact Or.inl rfl
  | some la =>
      dsimp only
      split_ifs with h1 h2 h3 <;>
        first
        | exact Or.inr ⟨p.2 - la, rfl⟩
        | exact Or.inl rfl

theorem rule3Step_appendStep (avg : ℚ) : AppendStep (rule3Step avg) := by
  intro st p
  unfold rule3Step
  split_ifs with h1 h2 <;>
    first
    | exact Or.inr ⟨p.2 - avg, rfl⟩
    | exact Or.inl rfl

theorem rule2Step_skip (last : List (String × ℚ))
    (st : List Anomaly × List String) (p : String × ℚ) (h : p.1 ∈ st.2) :
    rule2Step last st p = st := by
  unfold rule2Step
  cases lookupQ last p.1 with
  | none => rfl
  | some la =>
      dsimp only
      rw [if_neg (not_not_intro h)]

theorem rule3Step_skip (avg : ℚ)
    (st : List Anomaly × List String) (p : String × ℚ) (h : p.1 ∈ st.2) :
    rule3Step avg st p = st := by
  unfold rule3Step
  rw [if_neg (fun hc => hc.1 h)]

/-- Folding an append-shaped step over keys that avoid cat neither adds
nor removes anomalies attributed to cat, and only grows the detected
set. -/
theorem foldl_no_cat
    {f : (List Anomaly × List String) → (String × ℚ) →
      (List Anomaly × List String)}
    (hf : AppendStep f) (cat : String) :
    ∀ (l : List (String × ℚ)) (st : List Anomaly × List String),
      cat ∉ l.map Prod.fst →
      ((l.foldl f st).1.filter (fun an => an.category == cat) =
        st.1.filter (fun an => an.category == cat)
      ∧ ∀ x ∈ st.2, x ∈ (l.foldl f st).2) := by
  intro l
  induction l with
  | nil => exact fun st _ => ⟨rfl, fun x hx => hx⟩
  | cons p t ih =>
      intro st h
      simp only [List.map_cons, List.mem_cons, not_or] at h
      obtain ⟨hp, ht⟩ := h
      simp only [List.foldl_cons]
      have hstep : (f st p).1.filter (fun an => an.category == cat) =
          st.1.filter (fun an => an.category == cat)
          ∧ ∀ x ∈ st.2, x ∈ (f st p).2 := by
        rcases hf st p with heq | ⟨q, heq⟩
        · rw [heq]; exact ⟨rfl, fun x hx => hx⟩
        · rw [heq]
          constructor
          · rw [List.filter_append]
            have hone : ([(⟨p.1, q⟩ : Anomaly)].filter
                (fun an => an.category == cat)) = [] := by
              simp [Ne.symm hp]
            rw [hone, List.append_nil]
          · intro x hx
            exact List.mem_append_left _ hx
      obtain ⟨h1, h2⟩ := hstep
      obtain ⟨ih1, ih2⟩ := ih (f st p) ht
      exact ⟨ih1.trans h1, fun x hx => ih2 x (h2 x hx)⟩

/-- Folding a skipping append-shaped step keeps a category that is
already detected out of the new anomalies, and keeps it detected. -/
theorem foldl_pres_detected
    {f : (List Anomaly × List String) → (String × ℚ) →
      (List Anomaly × List String)}
    (hf : AppendStep f) (hskip : ∀ st p, p.1 ∈ st.2 → f st p = st)
    (cat : String) :
    ∀ (l : List (String × ℚ)) (st : List Anomaly × List String),
      cat ∈ st.2 →
      ((l.foldl f st).1.filter (fun an => an.category == cat) =
        st.1.filter (fun an => an.category == cat)
      ∧ cat ∈ (l.foldl f st).2) := by
  intro l
  induction l with
  | nil => exact fun st h => ⟨rfl, h⟩
  | cons p t ih =>
      intro st hst
      simp only [List.foldl_cons]
      by_cases hpc : p.1 = cat
      · rw [hskip st p (by rw [hpc]; exact hst)]
        exact ih st hst
      · have hstep : (f st p).1.filter (fun an => an.category == cat) =
            st.1.filter (fun an => an.category == cat)
            ∧ cat ∈ (f st p).2 := by
          rcases hf st p with heq | ⟨q, heq⟩
          · rw [heq]; exact ⟨rfl, hst⟩
          · rw [heq]
            constructor
            · rw [List.filter_append]
              have hone : ([(⟨p.1, q⟩ : Anomaly)].filter
                  (fun an => an.category == cat)) = [] := by
                simp [hpc]
              rw [hone, List.append_nil]
            · exact List.mem_append_left _ hst
        obtain ⟨h1, h2⟩ := hstep
        obtain ⟨ih1, ih2⟩ := ih (f st p) h2
        exact ⟨ih1.trans h1, ih2⟩

/-- Every anomaly an append-shaped fold adds is attributed to one of the
processed keys. -/
theorem foldl_cats
    {f : (List Anomaly × List String) → (String × ℚ) →
      (List Anomaly × List String)}
    (hf : AppendStep f) (P : String → Prop) :
    ∀ (l : List (String × ℚ)) (st : List Anomaly × List String),
      (∀ an ∈ st.1, P an.category) → (∀ p ∈ l, P p.1) →
      ∀ an ∈ (l.foldl f st).1, P an.category := by
  intro l
  induction l with
  | nil => exact fun st hst _ => hst
  | cons p t ih =>
      intro st hst hl
      simp only [List.foldl_cons]
      apply ih (f st p)
      · rcases hf st p with heq | ⟨q, heq⟩
        · rw [heq]; exact hst
        · rw [heq]
          intro an han
          rcases List.mem_append.mp han with h | h
          · exact hst an h
          · simp only [List.mem_singleton] at h
            rw [h]
            exact hl p (List.mem_cons_self p t)
      · exact fun x hx => hl x (List.mem_cons_of_mem p hx)

/-- Rule 1 on a duplicate-free expense dict containing cat with amount c,
against a budget allocating a < c to cat: exactly one anomaly for cat is
appended, with impact c - a, and cat lands in the detected set. -/
theorem rule1_fires (budget : List (String × ℚ)) (cat : String) (c a : ℚ)
    (hb : lookupQ budget cat = some a) (hca : a < c) :
    ∀ (l : List (String × ℚ)) (st : List Anomaly × List String),
      (l.map Prod.fst).Nodup → lookupQ l cat = some c →
      ((l.foldl (rule1Step budget) st).1.filter (fun an => an.category == cat) =
        st.1.filter (fun an => an.category == cat) ++ [⟨cat, c - a⟩]
      ∧ cat ∈ (l.foldl (rule1Step budget) st).2) := by
  intro l
  induction l with
  | nil => intro st _ hc; simp [lookupQ] at hc
  | cons p t ih =>
      intro st hnd hc
      simp only [List.map_cons, List.nodup_cons] at hnd
      obtain ⟨hp_not, hnd_t⟩ := hnd
      simp only [List.foldl_cons]
      by_cases hp : p.1 = cat
      · have hval : p.2 = c := by
          unfold lookupQ at hc
          rw [List.find?_cons_of_pos _ (by simp [hp])] at hc
          simpa using hc
        have hstep : rule1Step budget st p =
            (st.1 ++ [⟨cat, c - a⟩], st.2 ++ [cat]) := by
          unfold rule1Step
          rw [hp, hb]
          dsimp only
          rw [if_pos (by rw [hval]; exact hca), hval]
        rw [hstep]
        have hnocat : cat ∉ t.map Prod.fst := by rw [← hp]; exact hp_not
        obtain ⟨h1, h2⟩ := foldl_no_cat (rule1Step_appendStep budget) cat t
          (st.1 ++ [⟨cat, c - a⟩], st.2 ++ [cat]) hnocat
        constructor
        · rw [h1]
          rw [List.filter_append]
          congr 1
          simp
        · exact h2 cat (List.mem_append_right _ (List.mem_singleton_self cat))
      · have hc_t : lookupQ t cat = some c := by
          unfold lookupQ at hc ⊢
          rw [List.find?_cons_of_neg _ (by simp [hp])] at hc
          exact hc
        have hstep : (rule1Step budget st p).1.filter
              (fun an => an.category == cat) =
            st.1.filter (fun an => an.category == cat) := by
          rcases rule1Step_appendStep budget st p with heq | ⟨q, heq⟩
          · rw [heq]
          · rw [heq, List.filter_append]
            have hone : ([(⟨p.1, q⟩ : Anomaly)].filter
                (fun an => an.category == cat)) = [] := by
              simp [hp]
            rw [hone, List.append_nil]
        obtain ⟨ih1, ih2⟩ := ih (rule1Step budget st p) hnd_t hc_t
        exact ⟨by rw [ih1, hstep], ih2⟩

/-- Every aggregate anomaly carries the sentinel category. -/
theorem rule45_cats (current : List (String × ℚ)) (monthly_limit : ℚ) :
    ∀ an ∈ rule45 current monthly_limit, an.category = "Overall Budget" := by
  unfold rule45
  split_ifs <;> simp

theorem rule45_filter_ne (current : List (String × ℚ)) (monthly_limit : ℚ)
    (cat : String) (h : cat ≠ "Overall Budget") :
    (rule45 current monthly_limit).filter (fun an => an.category == cat) = [] := by
  unfold rule45
  split_ifs <;> simp [Ne.symm h]

/-- Rules 2 and 3 leave a category already detected by rule 1 alone. -/
theorem perCategory_filter_of_rule1 (current budget last : List (String × ℚ))
    (cat : String) (impact : ℚ)
    (h1f : (rule1 current budget).1.filter (fun an => an.category == cat) =
      [⟨cat, impact⟩])
    (h1d : cat ∈ (rule1 current budget).2) :
    (perCategoryAnomalies current budget last).1.filter
      (fun an => an.category == cat) = [⟨cat, impact⟩] := by
  unfold perCategoryAnomalies rule2 rule3
  obtain ⟨h2, h2d⟩ := foldl_pres_detected (rule2Step_appendStep last)
    (rule2Step_skip last) cat current (rule1 current budget) h1d
  split_ifs with hnil
  · rw [h2, h1f]
  · obtain ⟨h3, _⟩ := foldl_pres_detected
      (rule3Step_appendStep (avgPerCategory current))
      (rule3Step_skip (avgPerCategory current)) cat current
      (current.foldl (rule2Step last) (rule1 current budget)) h2d
    rw [h3, h2, h1f]

/-- Claim C6: a category of a duplicate-free current-expense dict whose
spend exceeds its budget allocation is flagged by rule 1 with impact
current - allocated, rules 2 and 3 do not flag it again, and (away from
the sentinel name) the full detector run carries exactly one anomaly for
it. -/
theorem overspend_rule_detects (cat : String) (c a : ℚ)
    (current budget last : List (String × ℚ))
    (hnd : (current.map Prod.fst).Nodup)
    (hc : lookupQ current cat = some c)
    (hb : lookupQ budget cat = some a)
    (hca : a < c) :
    (perCategoryAnomalies current budget last).1.filter
      (fun an => an.category == cat) = [⟨cat, c - a⟩]
    ∧ (∀ income monthly_limit target_savings : ℚ, cat ≠ "Overall Budget" →
        (ruleBasedAnomalyDetection income monthly_limit target_savings
          current budget last).filter (fun an => an.category == cat) =
          [⟨cat, c - a⟩]) := by
  obtain ⟨h1f, h1d⟩ := rule1_fires budget cat c a hb hca current ([], []) hnd hc
  have h1f2 : (rule1 current budget).1.filter (fun an => an.category == cat) =
      [⟨cat, c - a⟩] := by
    unfold rule1
    rw [h1f]
    simp
  have h1d2 : cat ∈ (rule1 current budget).2 := h1d
  have hmain := perCategory_filter_of_rule1 current budget last cat (c - a)
    h1f2 h1d2
  refine ⟨hmain, ?_⟩
  intro income monthly_limit target_savings hne
  unfold ruleBasedAnomalyDetection
  rw [List.filter_append, hmain,
    rule45_filter_ne current monthly_limit cat hne, List.append_nil]

theorem overspend_rule_detects_witness :
    (([("Food", (6000:ℚ))].map Prod.fst).Nodup
      ∧ lookupQ [("Food", 6000)] "Food" = some 6000
      ∧ lookupQ [("Food", 5000)] "Food" = some 5000
      ∧ (5000:ℚ) < 6000)
    ∧ (ruleBasedAnomalyDetection 50000 100000 0 [("Food", 6000)]
        [("Food", 5000)] []).filter (fun an => an.category == "Food") =
      [⟨"Food", 1000⟩] := by
  have h := overspend_rule_detects "Food" 6000 5000 [("Food", 6000)]
    [("Food", 5000)] [] (by simp) (by simp [lookupQ]) (by simp [lookupQ])
    (by norm_num)
  have h2 := h.2 50000 100000 0 (by simp)
  norm_num at h2
  exact ⟨⟨by simp, by simp [lookupQ], by simp [lookupQ], by norm_num⟩, h2⟩

/-- Claim C7: the month-over-month spike rule is strict at the 30 percent
boundary: with a single current category over a positive last-month spend,
an anomaly (with impact current - last) appears exactly when the increase
is strictly above 30 percent. -/
theorem spike_rule_strict (income monthly_limit target_savings c l : ℚ)
    (hl : 0 < l) (hc : 0 < c) :
    (ruleBasedAnomalyDetection income monthly_limit target_savings
        [("Food", c)] [] [("Food", l)]).filter
      (fun an => an.category == "Food") =
      (if ((c - l) / l) * 100 > 30 then [⟨"Food", c - l⟩] else []) := by
  have hr1 : rule1 [("Food", c)] [] = ([], []) := by
    simp [rule1, rule1Step, lookupQ]
  have hfood : lookupQ [("Food", l)] "Food" = some l := by simp [lookupQ]
  have havg : avgPerCategory [("Food", c)] = c := by
    simp [avgPerCategory, totalCurrent]
  have h45 : (rule45 [("Food", c)] monthly_limit).filter
      (fun an => an.category == "Food") = [] :=
    rule45_filter_ne _ _ _ (by simp)
  have hr2 : rule2 [("Food", c)] [("Food", l)] ([], []) =
      (if ((c - l) / l) * 100 > 30 then ([⟨"Food", c - l⟩], ["Food"])
        else ([], [])) := by
    unfold rule2
    simp only [List.foldl_cons, List.foldl_nil]
    unfold rule2Step
    rw [hfood]
    dsimp only
    rw [if_pos (by simp), if_pos hl]
    split_ifs with h <;> rfl
  unfold ruleBasedAnomalyDetection
  rw [List.filter_append, h45, List.append_nil]
  unfold perCategoryAnomalies
  rw [hr1, hr2]
  by_cases hcond : ((c - l) / l) * 100 > 30
  · rw [if_pos hcond, if_pos hcond]
    obtain ⟨h3, _⟩ := foldl_pres_detected
      (rule3Step_appendStep (avgPerCategory [("Food", c)]))
      (rule3Step_skip (avgPerCategory [("Food", c)])) "Food"
      [("Food", c)] ([⟨"Food", c - l⟩], ["Food"]) (by simp)
    unfold rule3
    rw [if_neg (by simp)]
    rw [h3]
    simp
  · rw [if_neg hcond, if_neg hcond]
    unfold rule3
    rw [if_neg (by simp)]
    simp only [List.foldl_cons, List.foldl_nil]
    rw [havg]
    unfold rule3Step
    rw [if_pos ⟨by simp, hc⟩, if_neg (by intro hgt; dsimp at hgt; linarith)]
    rfl

theorem spike_rule_strict_witness :
    ((0:ℚ) < 1000 ∧ (0:ℚ) < 1300 ∧
      (ruleBasedAnomalyDetection 50000 100000 0
          [("Food", 1300)] [] [("Food", 1000)]).filter
        (fun an => an.category == "Food") = [])
    ∧ ((0:ℚ) < 1000 ∧ (0:ℚ) < 1301 ∧
      (ruleBasedAnomalyDetection 50000 100000 0
          [("Food", 1301)] [] [("Food", 1000)]).filter
        (fun an => an.category == "Food") = [⟨"Food", 301⟩]) := by
  have h30 := spike_rule_strict 50000 100000 0 1300 1000 (by norm_num)
    (by norm_num)
  have h31 := spike_rule_strict 50000 100000 0 1301 1000 (by norm_num)
    (by norm_num)
  rw [if_neg (by norm_num)] at h30
  rw [if_pos (by norm_num)] at h31
  norm_num at h31
  exact ⟨⟨by norm_num, by norm_num, h30⟩, ⟨by norm_num, by norm_num, h31⟩⟩

/-- Claim C8 (amended): provided no current-expense category carries the
sentinel name, a detector run emits at most one anomaly under
"Overall Budget": with impact total - monthlyLimit when the total exceeds
the limit, else with impact total when the total sits strictly above
ninety percent of the limit and at most at it. -/
theorem aggregate_rules_exclusive (income monthly_limit target_savings : ℚ)
    (current budget last : List (String × ℚ))
    (hob : "Overall Budget" ∉ current.map Prod.fst) :
    (((ruleBasedAnomalyDetection income monthly_limit target_savings
        current budget last).filter
      (fun an => an.category == "Overall Budget")).length ≤ 1)
    ∧ (totalCurrent current > monthly_limit →
        (ruleBasedAnomalyDetection income monthly_limit target_savings
          current budget last).filter
          (fun an => an.category == "Overall Budget") =
        [⟨"Overall Budget", totalCurrent current - monthly_limit⟩])
    ∧ (totalCurrent current > monthly_limit * 0.9 →
        totalCurrent current ≤ monthly_limit →
        (ruleBasedAnomalyDetection income monthly_limit target_savings
          current budget last).filter
          (fun an => an.category == "Overall Budget") =
        [⟨"Overall Budget", totalCurrent current⟩]) := by
  have hkeys : ∀ p ∈ current, p.1 ∈ current.map Prod.fst :=
    fun p hp => List.mem_map_of_mem Prod.fst hp
  have h1 : ∀ an ∈ (rule1 current budget).1,
      an.category ∈ current.map Prod.fst := by
    unfold rule1
    exact foldl_cats (rule1Step_appendStep budget) _ current ([], [])
      (by simp) hkeys
  have h2 : ∀ an ∈ (rule2 current last (rule1 current budget)).1,
      an.category ∈ current.map Prod.fst := by
    unfold rule2
    exact foldl_cats (rule2Step_appendStep last) _ current _ h1 hkeys
  have h3 : ∀ an ∈ (perCategoryAnomalies current budget last).1,
      an.category ∈ current.map Prod.fst := by
    unfold perCategoryAnomalies rule3
    split_ifs with hnil
    · exact h2
    · exact foldl_cats (rule3Step_appendStep _) _ current _ h2 hkeys
  have hfilper : (perCategoryAnomalies current budget last).1.filter
      (fun an => an.category == "Overall Budget") = [] := by
    rw [List.filter_eq_nil]
    intro an han
    have hmem := h3 an han
    simp only [beq_iff_eq]
    intro heq
    rw [heq] at hmem
    exact hob hmem
  have hsplit : (ruleBasedAnomalyDetection income monthly_limit target_savings
      current budget last).filter (fun an => an.category == "Overall Budget") =
      (rule45 current monthly_limit).filter
        (fun an => an.category == "Overall Budget") := by
    unfold ruleBasedAnomalyDetection
    rw [List.filter_append, hfilper, List.nil_append]
  have h45self : (rule45 current monthly_limit).filter
      (fun an => an.category == "Overall Budget") =
      rule45 current monthly_limit := by
    unfold rule45
    split_ifs <;> simp
  rw [hsplit, h45self]
  refine ⟨?_, ?_, ?_⟩
  · unfold rule45
    split_ifs <;> simp
  · intro hgt
    unfold rule45
    rw [if_pos hgt]
  · intro h9 hle
    unfold rule45
    rw [if_neg (by linarith), if_pos ⟨h9, hle⟩]

theorem aggregate_rules_exclusive_witness :
    "Overall Budget" ∉ ([("Food", (9500:ℚ))].map Prod.fst)
    ∧ (ruleBasedAnomalyDetection 50000 10000 0 [("Food", 9500)]
        [("Food", 10000)] []).filter
      (fun an => an.category == "Overall Budget") =
      [⟨"Overall Budget", 9500⟩] := by
  have h := (aggregate_rules_exclusive 50000 10000 0 [("Food", 9500)]
    [("Food", 10000)] [] (by simp)).2.2
    (by norm_num [totalCurrent]) (by norm_num [totalCurrent])
  norm_num [totalCurrent] at h
  exact ⟨by simp, h⟩

/-- Claim C8 is false as frozen: when a current-expense category is itself
named "Overall Budget", rule 1 and rule 4 both fire for it, so one run
carries two anomalies under that category. -/
theorem claimC8_counterexample :
    1 < ((ruleBasedAnomalyDetection 50000 5000 0 [("Overall Budget", 6000)]
        [("Overall Budget", 5000)] []).filter
      (fun an => an.category == "Overall Budget")).length := by
  norm_num [ruleBasedAnomalyDetection, perCategoryAnomalies, rule1, rule2,
    rule3, rule1Step, rule2Step, rule3Step, rule45, lookupQ, avgPerCategory,
    totalCurrent]

/-- Claim C9: the fallback recommendation generator returns at least one
entry whenever total expenses are positive (the savings-opportunity tip is
always synthesized then), and returns exactly the single positive
financial-health message when no overrun, no spike and no savings tip
apply. -/
theorem fallbackRecommendations_nonempty (income : ℚ)
    (current last budget : List (String × ℚ)) (total_expenses : ℚ) :
    (0 < total_expenses →
      fallbackRecommendations income current last budget total_expenses ≠ []
      ∧ ({ category := "Savings Opportunity", type := "success" } : Recommendation) ∈
          fallbackRecommendations income current last budget total_expenses)
    ∧ (overruns current budget = [] → momChanges current last = [] →
        total_expenses ≤ 0 →
        fallbackRecommendations income current last budget total_expenses =
          [{ category := "Financial Health", type := "success" }]) := by
  constructor
  · intro ht
    simp only [fallbackRecommendations]
    rw [if_pos ht]
    have hne : (overruns current budget).map
          (fun o => ({ category := o.1 ++ " Budget Alert", type := "warning" } :
            Recommendation))
        ++ (momChanges current last).map
          (fun cat => { category := cat ++ " Spike", type := "warning" })
        ++ [{ category := "Savings Opportunity", type := "success" }] ≠ [] := by
      simp
    rw [if_neg hne]
    exact ⟨hne, by simp⟩
  · intro ho hm ht
    simp only [fallbackRecommendations]
    rw [ho, hm, if_neg (not_lt.mpr ht)]
    simp

theorem fallbackRecommendations_nonempty_witness :
    ((0:ℚ) < 100 ∧
      (fallbackRecommendations 1000 [("Food", 100)] [] [] 100 ≠ []
      ∧ ({ category := "Savings Opportunity", type := "success" } : Recommendation) ∈
          fallbackRecommendations 1000 [("Food", 100)] [] [] 100))
    ∧ (overruns [("Food", (100:ℚ))] [] = [] ∧ momChanges [("Food", (100:ℚ))] [] = []
      ∧ (0:ℚ) ≤ 0 ∧
      fallbackRecommendations 1000 [("Food", 100)] [] [] 0 =
        [{ category := "Financial Health", type := "success" }]) := by
  have ho : overruns [("Food", (100:ℚ))] [] = [] := by
    simp [overruns, lookupQ]
  have hm : momChanges [("Food", (100:ℚ))] [] = [] := by
    simp [momChanges, lookupQ]
  refine ⟨⟨by norm_num,
    (fallbackRecommendations_nonempty 1000 [("Food", 100)] [] [] 100).1
      (by norm_num)⟩, ho, hm, le_refl 0,
    (fallbackRecommendations_nonempty 1000 [("Food", 100)] [] [] 0).2
      ho hm (le_refl 0)⟩

theorem cdiv_isSome {a b : ℚ} (h : b ≠ 0) : (cdiv a b).isSome := by
  simp [cdiv, h]

theorem bind_isSome_of {α β : Type} {g : Option α} {f : α → Option β} (a : α)
    (hg : g = some a) (hf : (f a).isSome) : (g >>= f).isSome := by
  rw [hg]
  exact hf

theorem mapM_isSome {α β : Type} (f : α → Option β) :
    ∀ l : List α, (∀ x ∈ l, (f x).isSome) → (l.mapM f).isSome := by
  intro l
  induction l with
  | nil => intro _; rfl
  | cons a t ih =>
      intro h
      rw [List.mapM_cons]
      obtain ⟨b, hb⟩ := Option.isSome_iff_exists.mp (h a (List.mem_cons_self a t))
      obtain ⟨bs, hbs⟩ := Option.isSome_iff_exists.mp
        (ih fun x hx => h x (List.mem_cons_of_mem a hx))
      rw [hb, hbs]
      simp

theorem foldlM_isSome {σ α : Type} (f : σ → α → Option σ) :
    ∀ (l : List α) (st : σ), (∀ s a, a ∈ l → (f s a).isSome) →
      (l.foldlM f st).isSome := by
  intro l
  induction l with
  | nil => intro st _; rfl
  | cons a t ih =>
      intro st h
      rw [List.foldlM_cons]
      obtain ⟨s2, hs2⟩ := Option.isSome_iff_exists.mp
        (h st a (List.mem_cons_self a t))
      exact bind_isSome_of s2 hs2
        (ih s2 fun s b hb => h s b (List.mem_cons_of_mem a hb))

/-- Claim C10: every division of the two deterministic fallbacks sits
behind a guard that rules out a zero denominator, so the checked variants
(where each division fails on a zero denominator) succeed on all inputs. -/
theorem no_division_by_zero
    (income target_savings loan_commitments monthly_limit : ℚ)
    (past current budget last : List (String × ℚ)) :
    (ruleBasedBudgetChecked income target_savings loan_commitments past).isSome
    ∧ (ruleBasedAnomalyDetectionChecked income monthly_limit target_savings
        current budget last).isSome := by
  constructor
  · simp only [ruleBasedBudgetChecked]
    split_ifs with hsp
    · simp
    · push_neg at hsp
      have hraw : (rawBudgetChecked
          (income - target_savings - loan_commitments) past).isSome := by
        unfold rawBudgetChecked
        apply mapM_isSome
        intro x _
        unfold allocPercentChecked
        cases hl : lookupQ past x.1 with
        | none => simp
        | some v =>
            dsimp only
            obtain ⟨r, hr⟩ := Option.isSome_iff_exists.mp
              (cdiv_isSome (a := v) (ne_of_gt hsp))
            refine bind_isSome_of (max x.2.1 (min r x.2.2)) ?_ (by simp)
            rw [hr]
            rfl
      obtain ⟨raw, hrw⟩ := Option.isSome_iff_exists.mp hraw
      refine bind_isSome_of raw hrw ?_
      split_ifs with hgt
      · have hne : sumAlloc raw ≠ 0 := ne_of_gt (lt_trans hsp hgt)
        obtain ⟨f, hf⟩ := Option.isSome_iff_exists.mp
          (cdiv_isSome (a := income - target_savings - loan_commitments) hne)
        exact bind_isSome_of f hf (by simp)
      · simp
  · simp only [ruleBasedAnomalyDetectionChecked]
    have h2 : (current.foldlM (rule2StepChecked last)
        (rule1 current budget)).isSome := by
      apply foldlM_isSome
      intro s a _
      unfold rule2StepChecked
      cases hl : lookupQ last a.1 with
      | none => simp
      | some la =>
          dsimp only
          split_ifs with hd hpos
          · simp
          · obtain ⟨q, hq⟩ := Option.isSome_iff_exists.mp
              (cdiv_isSome (a := a.2 - la) (ne_of_gt hpos))
            exact bind_isSome_of q hq (by simp)
          · simp
    obtain ⟨st2, hst2⟩ := Option.isSome_iff_exists.mp h2
    refine bind_isSome_of st2 hst2 ?_
    have h3 : (rule3Checked current st2).isSome := by
      unfold rule3Checked
      split_ifs with hnil hpos
      · simp
      · obtain ⟨v, hv⟩ := Option.isSome_iff_exists.mp
          (cdiv_isSome (a := totalCurrent current) (ne_of_gt hpos))
        exact bind_isSome_of v hv (by simp)
      · simp
    obtain ⟨st3, hst3⟩ := Option.isSome_iff_exists.mp h3
    refine bind_isSome_of st3 hst3 ?_
    have h45 : (rule45Checked current monthly_limit).isSome := by
      unfold rule45Checked
      split_ifs with hgt h5
      · simp
      · have hml : monthly_limit ≠ 0 := by
          intro h0
          rw [h0] at h5
          obtain ⟨ha, hb⟩ := h5
          norm_num at ha
          linarith
        obtain ⟨v, hv⟩ := Option.isSome_iff_exists.mp
          (cdiv_isSome (a := totalCurrent current) hml)
        exact bind_isSome_of v hv (by simp)
      · simp
    obtain ⟨agg, hagg⟩ := Option.isSome_iff_exists.mp h45
    exact bind_isSome_of agg hagg (by simp)

end FinSage
